import Mathlib

/-!
# Verification of the PCA9685 PWM controller library (Go)

A shallow embedding of the Go sources of `SNAcorp/go-pca9685`:
the Peripheral Core (`pkg/pca9685/pca9685.go`), the pump facade
(`pkg/pca9685/pump.go`) and the RGB facade (`rgb.go`), together with
theorems settling the frozen claims about the natural-language spec.

Modelling conventions:
* Go `uint16` values are `Nat` (callers can pass `0..65535`); byte
  extraction `byte(x & 0xFF)` / `byte(x >> 8)` is `% 256` / `/ 256 % 256`.
* The I²C bus is an oracle: each operation receives the success/failure
  of the bus calls it may issue.  An issued write (successful or not) is
  recorded in a trace `List BusWrite` so that "no bus write was issued"
  is the trace being empty.
* A `context.Context` cancellation token is a `Bool` (`true` = already
  canceled / `Done` fires); fade loops receive the token state per step.
* `float64` frequencies, brightness and scaling arithmetic are modelled
  over `ℚ`; Go's float→integer conversion truncates toward zero, which
  for the non-negative quantities appearing here is `Int.floor`.
* `sync` mutexes are erased: we model the sequential semantics of each
  exported operation (the per-channel lock re-entry in `DisableChannels`
  is noted at that definition).
-/

namespace PCA

/-- One PWM channel of the controller (`Channel` in `pca9685.go`):
`enabled`, and the recorded `on`/`off` counts (Go `uint16`). -/
structure Channel where
  enabled : Bool
  onVal : Nat   -- `on` is a Lean keyword; this is the Go field `on`
  offVal : Nat  -- the Go field `off`
deriving DecidableEq, Repr

/-- Logical state of a `PCA9685` controller: the recorded frequency
(`Freq`, Go `float64`, modelled over `ℚ`) and the fixed table of 16
channels. -/
structure PCA9685 where
  freq : ℚ
  channels : Fin 16 → Channel

/-- Errors surfaced by the Go code.  `busError` stands for any opaque
error returned by the underlying `I2C` device; the other constructors
mirror the distinct `fmt.Errorf` sites. -/
inductive PCAError where
  | invalidChannel (channel : Int)   -- "invalid channel number: %d"
  | channelDisabled (channel : Int)  -- "channel %d is disabled"
  | canceled                         -- ctx.Err()
  | busError                         -- failed bus write / read
  | freqOutOfRange                   -- "frequency out of range (24-1526 Hz)"
deriving DecidableEq, Repr

/-- One register write issued on the bus: register address and payload
bytes. -/
abbrev BusWrite := Nat × List Nat

/-- Result of an operation: the error (`none` = success, mirroring a
`nil` Go error), the state after the call, and the trace of bus writes
issued (attempted writes included). -/
structure PCAResult where
  err : Option PCAError
  state : PCA9685
  writes : List BusWrite

/-- Register constants from `pca9685.go`. -/
def RegMode1 : Nat := 0x00
def Mode1Sleep : Nat := 0x10
def Mode1AutoInc : Nat := 0x20
def Mode1Restart : Nat := 0x80
def RegLed0 : Nat := 0x06
def RegAllLed : Nat := 0xFA
def RegPrescale : Nat := 0xFE
def PwmResolution : Nat := 4096
def MinFrequency : Nat := 24
def MaxFrequency : Nat := 1526
def OscClock : Nat := 25000000

/-- `validateChannel` of `pca9685.go`: a Go `int` channel is valid iff
`0 ≤ channel ≤ 15`. -/
def validChannel (channel : Int) : Prop := ¬(channel < 0 ∨ 15 < channel)

instance (channel : Int) : Decidable (validChannel channel) := by
  unfold validChannel; infer_instance

/-- Index into the channel table once validation has passed. -/
def chIdx (channel : Int) (h : ¬(channel < 0 ∨ 15 < channel)) : Fin 16 :=
  ⟨channel.toNat, by omega⟩

/-- The 4-byte little-endian payload `[on_lo, on_hi, off_lo, off_hi]`
written for a channel (`data` in `SetPWM`/`SetAllPWM`). -/
def encodePWM (onVal offVal : Nat) : List Nat :=
  [onVal % 256, onVal / 256 % 256, offVal % 256, offVal / 256 % 256]

/-- `SetPWM` of `pca9685.go`: validate the channel, reject a disabled
channel, honor a pre-canceled context, then issue one 4-byte write at
`RegLed0 + 4*channel` and record `on`/`off` on success.  `ctxDone` is
whether `ctx.Done()` already fires; `writeOk` is the outcome of the one
bus write it may issue. -/
def SetPWM (s : PCA9685) (ctxDone writeOk : Bool) (channel : Int)
    (onVal offVal : Nat) : PCAResult :=
  if h : channel < 0 ∨ 15 < channel then
    ⟨some (.invalidChannel channel), s, []⟩
  else
    let i : Fin 16 := chIdx channel h
    let ch := s.channels i
    if ch.enabled = false then
      ⟨some (.channelDisabled channel), s, []⟩
    else if ctxDone then
      ⟨some .canceled, s, []⟩
    else
      let w : BusWrite := (RegLed0 + 4 * channel.toNat, encodePWM onVal offVal)
      if writeOk = false then
        ⟨some .busError, s, [w]⟩
      else
        ⟨none,
         { s with channels := (Function.update s.channels i
            ({ ch with onVal := onVal, offVal := offVal })) },
         [w]⟩

/-- `GetChannelState` of `pca9685.go`: snapshot
`(enabled, on, off)` of a valid channel, error on an invalid index. -/
def GetChannelState (s : PCA9685) (channel : Int) :
    Except PCAError (Bool × Nat × Nat) :=
  if h : channel < 0 ∨ 15 < channel then
    .error (.invalidChannel channel)
  else
    let ch := s.channels (chIdx channel h)
    .ok (ch.enabled, ch.onVal, ch.offVal)

/-- The controller state produced by `New` with the default config and a
bus that accepts everything: all 16 channels enabled with zero `on`/`off`
and frequency 1000 Hz. -/
def NewState : PCA9685 :=
  ⟨1000, fun _ => ⟨true, 0, 0⟩⟩

/-- `SetAllPWM` of `pca9685.go`: honor a pre-canceled context, then one
broadcast write at `RegAllLed`; on success record `on`/`off` on every
currently-enabled channel (disabled channels keep their recorded
values). -/
def SetAllPWM (s : PCA9685) (ctxDone writeOk : Bool)
    (onVal offVal : Nat) : PCAResult :=
  if ctxDone then
    ⟨some .canceled, s, []⟩
  else
    let w : BusWrite := (RegAllLed, encodePWM onVal offVal)
    if writeOk = false then
      ⟨some .busError, s, [w]⟩
    else
      ⟨none,
       { s with channels := fun i =>
          if (s.channels i).enabled then
            { s.channels i with onVal := onVal, offVal := offVal }
          else s.channels i },
       [w]⟩

/-- One `(channel, (On, Off))` entry of the `settings` map passed to
`SetMultiPWM`. -/
abbrev PWMSetting := Int × Nat × Nat

/-- The application loop of `SetMultiPWM`: for each entry, check the
context, then delegate to `SetPWM`, stopping at the first failure (the
Go code wraps the error text; the underlying error is kept here).  The
list order stands for one iteration order of the Go map, which is
nondeterministic. -/
def multiLoop (ctxDone writeOk : Bool) :
    PCA9685 → List PWMSetting → PCAResult
  | s, [] => ⟨none, s, []⟩
  | s, (channel, onVal, offVal) :: rest =>
    if ctxDone then
      ⟨some .canceled, s, []⟩
    else
      let r := SetPWM s ctxDone writeOk channel onVal offVal
      match r.err with
      | some e => ⟨some e, r.state, r.writes⟩
      | none =>
        let r2 := multiLoop ctxDone writeOk r.state rest
        ⟨r2.err, r2.state, r.writes ++ r2.writes⟩

/-- `SetMultiPWM` of `pca9685.go`: validate every channel key up front
(the first invalid key, in iteration order, is reported and nothing is
written), then run the application loop. -/
def SetMultiPWM (s : PCA9685) (ctxDone writeOk : Bool)
    (settings : List PWMSetting) : PCAResult :=
  match settings.find? (fun e => decide (e.1 < 0) || decide (15 < e.1)) with
  | some e => ⟨some (.invalidChannel e.1), s, []⟩
  | none => multiLoop ctxDone writeOk s settings

/-- `EnableChannels` of `pca9685.go`: walk the argument list, validating
each index as it is reached; a valid index has its `enabled` flag set
`true` immediately, and the first invalid index aborts the walk with a
validation error (earlier channels stay enabled).  No bus write is ever
issued. -/
def EnableChannels : PCA9685 → List Int → PCAResult
  | s, [] => ⟨none, s, []⟩
  | s, channel :: rest =>
    if h : channel < 0 ∨ 15 < channel then
      ⟨some (.invalidChannel channel), s, []⟩
    else
      let i := chIdx channel h
      EnableChannels
        { s with channels := (Function.update s.channels i
            ({ s.channels i with enabled := true })) } rest

/-- `DisableChannels` of `pca9685.go`: for each listed channel, validate
it, clear its `enabled` flag, then call `SetPWM(pca.ctx, ch, 0, 0)` to
silence the output.  Since the flag was just cleared, that inner
`SetPWM` hits its own disabled-channel check and fails, so the walk
stops with a wrapped error.  (In the actual Go code the inner call also
re-locks the channel's non-reentrant mutex, which deadlocks; the
embedding keeps the sequential logic, under which the disabled-channel
error is the observable outcome.)  `pcaCtx` is the controller's own
context token; `writeOk` the outcome of any bus write attempted. -/
def DisableChannels (pcaCtx writeOk : Bool) :
    PCA9685 → List Int → PCAResult
  | s, [] => ⟨none, s, []⟩
  | s, channel :: rest =>
    if h : channel < 0 ∨ 15 < channel then
      ⟨some (.invalidChannel channel), s, []⟩
    else
      let i := chIdx channel h
      let s1 : PCA9685 :=
        { s with channels := (Function.update s.channels i
            ({ s.channels i with enabled := false })) }
      let r := SetPWM s1 pcaCtx writeOk channel 0 0
      match r.err with
      | some e => ⟨some e, r.state, r.writes⟩
      | none =>
        let r2 := DisableChannels pcaCtx writeOk r.state rest
        ⟨r2.err, r2.state, r.writes ++ r2.writes⟩

/-- Outcomes of the five bus accesses `SetPWMFreq` may perform:
the `MODE1` read (`none` = read failure, `some oldMode` = the byte
read) and the four register writes that follow. -/
structure FreqBus where
  readMode1 : Option Nat
  wSleep : Bool
  wPrescale : Bool
  wRestore : Bool
  wRestart : Bool

/-- The prescale value computed by `SetPWMFreq`:
`round(OscClock / (PwmResolution * freq)) - 1`, floored at 3.  Go's
`math.Round` rounds half away from zero; the argument is positive for
every accepted frequency, where this agrees with `round` on `ℚ`. -/
def prescaleFor (freq : ℚ) : Int :=
  max 3 (round ((OscClock : ℚ) / ((PwmResolution : ℚ) * freq)) - 1)

/-- `SetPWMFreq` of `pca9685.go`: reject a frequency outside
`[24, 1526]`; otherwise read `MODE1`, write sleep mode (old mode with
restart bit cleared, sleep bit set), write the prescale byte, restore
the old mode, wait 500µs (erased), and write old mode with restart and
auto-increment bits.  Only when every step succeeded is `Freq` set. -/
def SetPWMFreq (s : PCA9685) (bus : FreqBus) (freq : ℚ) : PCAResult :=
  if freq < (MinFrequency : ℚ) ∨ (MaxFrequency : ℚ) < freq then
    ⟨some .freqOutOfRange, s, []⟩
  else
    match bus.readMode1 with
    | none => ⟨some .busError, s, []⟩
    | some oldMode =>
      let w1 : BusWrite := (RegMode1, [(oldMode.land 0x7F).lor Mode1Sleep])
      if bus.wSleep = false then ⟨some .busError, s, [w1]⟩ else
      let w2 : BusWrite := (RegPrescale, [(prescaleFor freq).toNat % 256])
      if bus.wPrescale = false then ⟨some .busError, s, [w1, w2]⟩ else
      let w3 : BusWrite := (RegMode1, [oldMode])
      if bus.wRestore = false then ⟨some .busError, s, [w1, w2, w3]⟩ else
      let w4 : BusWrite :=
        (RegMode1, [(oldMode.lor Mode1Restart).lor Mode1AutoInc])
      if bus.wRestart = false then ⟨some .busError, s, [w1, w2, w3, w4]⟩ else
      ⟨none, { s with freq := freq }, [w1, w2, w3, w4]⟩

/-! ## Pump facade (`pkg/pca9685/pump.go`) -/

/-- The facade-local state of a `Pump`: its channel index and speed
limits (Go `uint16`). -/
structure Pump where
  channel : Int
  minSpeed : Nat
  maxSpeed : Nat
deriving DecidableEq, Repr

/-- `WithSpeedLimits` of `pump.go`, applied to a pump: swap the two
arguments when given in reversed order (`min > max`), clamp `max` to
4095, and assign both fields.  `min` is never clamped. -/
def WithSpeedLimits (minArg maxArg : Nat) (p : Pump) : Pump :=
  let mn := if minArg > maxArg then maxArg else minArg
  let mx := if minArg > maxArg then minArg else maxArg
  let mx := if mx > 4095 then 4095 else mx
  { p with minSpeed := mn, maxSpeed := mx }

/-- The pump constructed by `NewPump` before options are applied:
`minSpeed = 0`, `maxSpeed = 4095`. -/
def NewPumpBase (channel : Int) : Pump :=
  ⟨channel, 0, 4095⟩

/-! ## RGB facade (`rgb.go`) -/

/-- `RGBCalibration` of `rgb.go`: per-channel duty ranges. -/
structure RGBCalibration where
  redMin : Nat
  redMax : Nat
  greenMin : Nat
  greenMax : Nat
  blueMin : Nat
  blueMax : Nat
deriving DecidableEq, Repr

/-- `DefaultRGBCalibration` of `rgb.go`: mins 0, maxes 4095. -/
def DefaultRGBCalibration : RGBCalibration :=
  ⟨0, 4095, 0, 4095, 0, 4095⟩

/-- Facade-local state of an `RGBLed`: the three channel indices,
brightness (`float64` in `[0,1]`, modelled over `ℚ`), calibration. -/
structure RGBLed where
  red : Int
  green : Int
  blue : Int
  brightness : ℚ
  calibration : RGBCalibration

/-- The led constructed by `NewRGBLed`: brightness 1.0, default
calibration. -/
def NewRGBLed (red green blue : Int) : RGBLed :=
  ⟨red, green, blue, 1, DefaultRGBCalibration⟩

/-- Go `uint16` subtraction `max - min` (wraps modulo 2^16 if
`min > max`, as in `float64(max-min)` of `rgb.go`). -/
def u16sub (a b : Nat) : Nat := (a + 65536 - b) % 65536

/-- The `scale` closure inside `RGBLed.SetColor`:
`uint16(value*brightness*float64(max-min)/255 + float64(min))`, then
clamped to `max`.  Go's float→`uint16` conversion truncates toward
zero; the expression is non-negative for `brightness ∈ [0,1]`, so this
is `Int.floor` (note: it truncates, it does not round). -/
def rgbScale (brightness : ℚ) (value : Nat) (mn mx : Nat) : Nat :=
  let v : ℚ := (value : ℚ) * brightness
  let scaled : Nat :=
    (⌊v * (u16sub mx mn : ℚ) / 255 + (mn : ℚ)⌋).toNat
  if scaled > mx then mx else scaled

/-- The `settings` map built by `RGBLed.SetColor`: `on` fixed at 0, the
duty (`off`) of each of the three channels scaled from its 8-bit value
through brightness and calibration.  Listed in red, green, blue order
(one possible iteration order of the Go map). -/
def SetColorSettings (l : RGBLed) (r g b : Nat) : List PWMSetting :=
  [ (l.red, 0, rgbScale l.brightness r l.calibration.redMin l.calibration.redMax),
    (l.green, 0, rgbScale l.brightness g l.calibration.greenMin l.calibration.greenMax),
    (l.blue, 0, rgbScale l.brightness b l.calibration.blueMin l.calibration.blueMax) ]

/-- `RGBLed.SetColor` of `rgb.go`: build the three-entry settings map
and submit it through `SetMultiPWM`. -/
def SetColor (l : RGBLed) (s : PCA9685) (ctxDone writeOk : Bool)
    (r g b : Nat) : PCAResult :=
  SetMultiPWM s ctxDone writeOk (SetColorSettings l r g b)

/-! ## Fade (modelled from the spec) -/

/-- Modelled from the spec: the `FadeChannel` implementation is missing
from `src/` (only its tests and callers appear there).  Spec §4.2
"Fade": linear interpolation from `start` to `stop` across a fixed
count of 20 steps; this is the interpolated value commanded at step
`i ∈ [1,20]`, with step 20 landing exactly on `stop`. -/
def fadeValue (start stop i : Nat) : Nat :=
  if start ≤ stop then start + (stop - start) * i / 20
  else start - (start - stop) * i / 20

/-- Modelled from the spec: the stepping loop of `fade`.  `i` is the
next step index, `k` the number of steps remaining; before each step
the token is checked (`ctxAt i` = the token has fired by step `i`) and
the loop stops with the cancellation error the first time it fires,
otherwise it issues a discrete `set_pwm(channel, 0, value_i)` and stops
at the first failure. -/
def fadeLoop (writeOk : Bool) (ctxAt : Nat → Bool) (channel : Int)
    (start stop : Nat) : Nat → Nat → PCA9685 → PCAResult
  | _, 0, s => ⟨none, s, []⟩
  | i, k + 1, s =>
    if ctxAt i then
      ⟨some .canceled, s, []⟩
    else
      let r := SetPWM s (ctxAt i) writeOk channel 0 (fadeValue start stop i)
      match r.err with
      | some e => ⟨some e, r.state, r.writes⟩
      | none =>
        let r2 := fadeLoop writeOk ctxAt channel start stop (i + 1) k r.state
        ⟨r2.err, r2.state, r.writes ++ r2.writes⟩

/-- Modelled from the spec: `fade(channel, start, end, duration,
cancel)` is "purely a convenience loop over `set_pwm` with linear
interpolation across a fixed step count (20 steps) and even time
spacing" — the even time spacing is erased, leaving the 20 discrete
`set_pwm` steps from `start` to `stop`. -/
def FadeChannel (s : PCA9685) (ctxAt : Nat → Bool) (writeOk : Bool)
    (channel : Int) (start stop : Nat) : PCAResult :=
  fadeLoop writeOk ctxAt channel start stop 1 20 s

/-! ## Helper lemmas -/

/-- A channel index coming from `Fin 16` always passes `validateChannel`. -/
theorem fin16_valid (c : Fin 16) :
    ¬((c.val : Int) < 0 ∨ 15 < (c.val : Int)) := by
  have h := c.isLt
  omega

/-- `chIdx` inverts the coercion `Fin 16 → Int`. -/
theorem chIdx_val (c : Fin 16)
    (h : ¬((c.val : Int) < 0 ∨ 15 < (c.val : Int))) :
    chIdx (c.val : Int) h = c := by
  apply Fin.ext
  simp [chIdx]

/-- Unfolding of `SetPWM` at an in-range channel index. -/
theorem setPWM_valid_eq (s : PCA9685) (ctxDone writeOk : Bool) (c : Fin 16)
    (onVal offVal : Nat) :
    SetPWM s ctxDone writeOk (c.val : Int) onVal offVal =
      (if (s.channels c).enabled = false then
        ⟨some (.channelDisabled (c.val : Int)), s, []⟩
      else if ctxDone then ⟨some .canceled, s, []⟩
      else if writeOk = false then
        ⟨some .busError, s, [(RegLed0 + 4 * c.val, encodePWM onVal offVal)]⟩
      else
        ⟨none, { s with channels := (Function.update s.channels c
            ({ s.channels c with onVal := onVal, offVal := offVal })) },
          [(RegLed0 + 4 * c.val, encodePWM onVal offVal)]⟩) := by
  unfold SetPWM
  rw [dif_neg (fin16_valid c)]
  simp only [chIdx_val, Int.toNat_natCast]

/-- `SetPWM` on a disabled channel fails with the disabled-channel error
regardless of the token and the bus, touching nothing. -/
theorem setPWM_disabled_eq (s : PCA9685) (ctxDone writeOk : Bool)
    (c : Fin 16) (onVal offVal : Nat)
    (hdis : (s.channels c).enabled = false) :
    SetPWM s ctxDone writeOk (c.val : Int) onVal offVal =
      ⟨some (.channelDisabled (c.val : Int)), s, []⟩ := by
  rw [setPWM_valid_eq, if_pos hdis]

/-- `SetPWM` on an enabled channel, live token, successful write:
records the new pair and issues the one register write. -/
theorem setPWM_ok_eq (s : PCA9685) (c : Fin 16) (onVal offVal : Nat)
    (hen : (s.channels c).enabled = true) :
    SetPWM s false true (c.val : Int) onVal offVal =
      ⟨none, { s with channels := (Function.update s.channels c
          ({ s.channels c with onVal := onVal, offVal := offVal })) },
        [(RegLed0 + 4 * c.val, encodePWM onVal offVal)]⟩ := by
  rw [setPWM_valid_eq, if_neg (by simp [hen]), if_neg (by simp),
    if_neg (by simp)]

/-- The spec invariant on recorded duty values: every channel records
`on ≤ 4095` and `off ≤ 4095`. -/
def dutyInv (s : PCA9685) : Prop :=
  ∀ i : Fin 16, (s.channels i).onVal ≤ 4095 ∧ (s.channels i).offVal ≤ 4095

/-- The state after `SetPWM` is either untouched or the single-channel
update with exactly the passed values. -/
theorem setPWM_state_cases (s : PCA9685) (ctxDone writeOk : Bool)
    (channel : Int) (onVal offVal : Nat) :
    (SetPWM s ctxDone writeOk channel onVal offVal).state = s ∨
    ∃ h : ¬(channel < 0 ∨ 15 < channel),
      (SetPWM s ctxDone writeOk channel onVal offVal).state =
        { s with channels := (Function.update s.channels (chIdx channel h)
            ({ s.channels (chIdx channel h) with
                onVal := onVal, offVal := offVal })) } := by
  unfold SetPWM
  by_cases h : channel < 0 ∨ 15 < channel
  · rw [dif_pos h]; left; rfl
  · rw [dif_neg h]
    dsimp only
    by_cases hd : (s.channels (chIdx channel h)).enabled = false
    · rw [if_pos hd]; left; rfl
    · rw [if_neg hd]
      by_cases hc : ctxDone = true
      · rw [if_pos hc]; left; rfl
      · rw [if_neg hc]
        by_cases hw : writeOk = false
        · rw [if_pos hw]; left; rfl
        · rw [if_neg hw]; right; exact ⟨h, rfl⟩

/-- `SetPWM` with bounded arguments preserves the duty invariant. -/
theorem setPWM_dutyInv (s : PCA9685) (ctxDone writeOk : Bool)
    (channel : Int) (onVal offVal : Nat) (hon : onVal ≤ 4095)
    (hoff : offVal ≤ 4095) (hs : dutyInv s) :
    dutyInv (SetPWM s ctxDone writeOk channel onVal offVal).state := by
  rcases setPWM_state_cases s ctxDone writeOk channel onVal offVal with
    heq | ⟨h, heq⟩
  · rw [heq]; exact hs
  · rw [heq]
    intro i
    dsimp only
    rw [Function.update_apply]
    by_cases hi : i = chIdx channel h
    · rw [if_pos hi]; exact ⟨hon, hoff⟩
    · rw [if_neg hi]; exact hs i

/-- `SetAllPWM` with bounded arguments preserves the duty invariant. -/
theorem setAllPWM_dutyInv (s : PCA9685) (ctxDone writeOk : Bool)
    (onVal offVal : Nat) (hon : onVal ≤ 4095) (hoff : offVal ≤ 4095)
    (hs : dutyInv s) :
    dutyInv (SetAllPWM s ctxDone writeOk onVal offVal).state := by
  unfold SetAllPWM
  by_cases hc : ctxDone = true
  · rw [if_pos hc]; exact hs
  · rw [if_neg hc]
    dsimp only
    by_cases hw : writeOk = false
    · rw [if_pos hw]; exact hs
    · rw [if_neg hw]
      intro i
      dsimp only
      by_cases he : (s.channels i).enabled = true
      · rw [if_pos he]; exact ⟨hon, hoff⟩
      · rw [if_neg he]; exact hs i

/-- The `SetMultiPWM` loop with bounded entries preserves the duty
invariant. -/
theorem multiLoop_dutyInv (ctxDone writeOk : Bool) :
    ∀ (settings : List PWMSetting) (s : PCA9685),
    (∀ e ∈ settings, e.2.1 ≤ 4095 ∧ e.2.2 ≤ 4095) → dutyInv s →
    dutyInv (multiLoop ctxDone writeOk s settings).state := by
  intro settings
  induction settings with
  | nil => intro s _ hs; exact hs
  | cons e rest ih =>
    intro s hb hs
    obtain ⟨c, onV, offV⟩ := e
    unfold multiLoop
    by_cases hc : ctxDone = true
    · rw [if_pos hc]; exact hs
    · rw [if_neg hc]
      dsimp only
      have hbd := hb (c, onV, offV) (List.mem_cons_self _ _)
      have h1 : dutyInv (SetPWM s ctxDone writeOk c onV offV).state :=
        setPWM_dutyInv s ctxDone writeOk c onV offV hbd.1 hbd.2 hs
      cases herr : (SetPWM s ctxDone writeOk c onV offV).err with
      | some e0 => simp only [herr]; exact h1
      | none =>
        simp only [herr]
        exact ih _ (fun e he => hb e (List.mem_cons_of_mem _ he)) h1

/-- `SetMultiPWM` with bounded entries preserves the duty invariant. -/
theorem setMultiPWM_dutyInv (s : PCA9685) (ctxDone writeOk : Bool)
    (settings : List PWMSetting)
    (hb : ∀ e ∈ settings, e.2.1 ≤ 4095 ∧ e.2.2 ≤ 4095) (hs : dutyInv s) :
    dutyInv (SetMultiPWM s ctxDone writeOk settings).state := by
  unfold SetMultiPWM
  cases hf : settings.find? (fun e => decide (e.1 < 0) || decide (15 < e.1))
  · exact multiLoop_dutyInv ctxDone writeOk settings s hb hs
  · exact hs

/-- `DisableChannels` preserves the duty invariant (it only clears
enabled flags and hands zero values to `SetPWM`). -/
theorem disableChannels_dutyInv (pcaCtx writeOk : Bool) :
    ∀ (cs : List Int) (s : PCA9685), dutyInv s →
    dutyInv (DisableChannels pcaCtx writeOk s cs).state := by
  intro cs
  induction cs with
  | nil => intro s hs; exact hs
  | cons c rest ih =>
    intro s hs
    unfold DisableChannels
    by_cases h : c < 0 ∨ 15 < c
    · rw [dif_pos h]; exact hs
    · rw [dif_neg h]
      dsimp only
      have hs1 : dutyInv
          { s with channels := (Function.update s.channels (chIdx c h)
              ({ s.channels (chIdx c h) with enabled := false })) } := by
        intro i
        dsimp only
        rw [Function.update_apply]
        by_cases hi : i = chIdx c h
        · rw [if_pos hi]; exact hs (chIdx c h)
        · rw [if_neg hi]; exact hs i
      have h2 := setPWM_dutyInv _ pcaCtx writeOk c 0 0 (by norm_num)
        (by norm_num) hs1
      cases herr : (SetPWM _ pcaCtx writeOk c 0 0).err with
      | some e0 => simp only [herr]; exact h2
      | none =>
        simp only [herr]
        exact ih _ h2

/-! ## Claims -/

/-- C10: for every valid channel that is currently disabled and every
token (including an already-canceled one), `SetPWM` returns the
disabled-channel error rather than the cancellation error — the
disabled check precedes the cancellation check — and neither a bus
write nor any recorded state change occurs. -/
theorem setPWM_disabled_before_cancel (s : PCA9685)
    (ctxDone writeOk : Bool) (c : Fin 16) (onVal offVal : Nat)
    (hdis : (s.channels c).enabled = false) :
    SetPWM s ctxDone writeOk (c.val : Int) onVal offVal =
      ⟨some (.channelDisabled (c.val : Int)), s, []⟩ := by
  exact setPWM_disabled_eq s ctxDone writeOk c onVal offVal hdis

/-- Witness for C10: channel 3 disabled, token already canceled. -/
theorem setPWM_disabled_before_cancel_witness :
    ((⟨1000, fun i => if i = 3 then ⟨false, 0, 0⟩ else ⟨true, 0, 0⟩⟩ :
        PCA9685).channels 3).enabled = false ∧
    SetPWM (⟨1000, fun i => if i = 3 then ⟨false, 0, 0⟩ else ⟨true, 0, 0⟩⟩ :
        PCA9685) true true (((3 : Fin 16)).val : Int) 7 9 =
      ⟨some (.channelDisabled (((3 : Fin 16)).val : Int)),
       ⟨1000, fun i => if i = 3 then ⟨false, 0, 0⟩ else ⟨true, 0, 0⟩⟩, []⟩ := by
  refine ⟨rfl, ?_⟩
  exact setPWM_disabled_before_cancel _ true true 3 7 9 rfl

/-- C5: for every valid channel that is enabled, on/off in [0, 4095], a
live token and a successful bus write, `SetPWM` then `GetChannelState`
returns exactly the same (on, off) pair. -/
theorem setPWM_then_get_roundtrip (s : PCA9685) (c : Fin 16)
    (onVal offVal : Nat) (hon : onVal ≤ 4095) (hoff : offVal ≤ 4095)
    (hen : (s.channels c).enabled = true) :
    (SetPWM s false true (c.val : Int) onVal offVal).err = none ∧
    GetChannelState (SetPWM s false true (c.val : Int) onVal offVal).state
        (c.val : Int) = .ok (true, onVal, offVal) := by
  rw [setPWM_ok_eq s c onVal offVal hen]
  refine ⟨rfl, ?_⟩
  unfold GetChannelState
  rw [dif_neg (fin16_valid c)]
  rw [chIdx_val]
  simp [hen]

/-- Witness for C5: channel 4 of the freshly constructed controller,
values (11, 222). -/
theorem setPWM_then_get_roundtrip_witness :
    (11 ≤ 4095 ∧ 222 ≤ 4095 ∧ (NewState.channels 4).enabled = true) ∧
    ((SetPWM NewState false true (((4 : Fin 16)).val : Int) 11 222).err
        = none ∧
     GetChannelState
        (SetPWM NewState false true (((4 : Fin 16)).val : Int) 11 222).state
        (((4 : Fin 16)).val : Int) = .ok (true, 11, 222)) := by
  refine ⟨⟨by norm_num, by norm_num, rfl⟩, ?_⟩
  exact setPWM_then_get_roundtrip NewState 4 11 222 (by norm_num)
    (by norm_num) rfl

/-- C6 counterexample: `SetMultiPWM` called with a pre-canceled token
but an empty settings map returns success — it does not fail — so the
claim that a pre-canceled token always causes immediate failure is
false at this input. -/
theorem setMultiPWM_empty_canceled_succeeds :
    (SetMultiPWM NewState true true []).err = none := rfl

/-- C6 amended: with a pre-canceled token, `SetPWM`, `SetAllPWM` and
`SetMultiPWM` issue no bus write and leave the channel table unchanged;
`SetPWM` and `SetAllPWM` always fail, and `SetMultiPWM` fails for every
non-empty settings map (with the empty map it returns success, still
without writing anything). -/
theorem precanceled_fails_without_write (s : PCA9685) (w : Bool) :
    (∀ (channel : Int) (onVal offVal : Nat),
       (SetPWM s true w channel onVal offVal).err.isSome = true ∧
       (SetPWM s true w channel onVal offVal).state = s ∧
       (SetPWM s true w channel onVal offVal).writes = []) ∧
    (∀ onVal offVal : Nat,
       SetAllPWM s true w onVal offVal = ⟨some .canceled, s, []⟩) ∧
    (∀ settings : List PWMSetting, settings ≠ [] →
       (SetMultiPWM s true w settings).err.isSome = true) ∧
    (∀ settings : List PWMSetting,
       (SetMultiPWM s true w settings).state = s ∧
       (SetMultiPWM s true w settings).writes = []) := by
  refine ⟨?_, ?_, ?_, ?_⟩
  · intro channel onVal offVal
    unfold SetPWM
    by_cases h : channel < 0 ∨ 15 < channel
    · rw [dif_pos h]; exact ⟨rfl, rfl, rfl⟩
    · rw [dif_neg h]
      by_cases hd : (s.channels (chIdx channel h)).enabled = false
      · rw [if_pos hd]; exact ⟨rfl, rfl, rfl⟩
      · rw [if_neg hd, if_pos rfl]; exact ⟨rfl, rfl, rfl⟩
  · intro onVal offVal
    unfold SetAllPWM
    rw [if_pos rfl]
  · intro settings hne
    unfold SetMultiPWM
    cases hf : settings.find? (fun e => decide (e.1 < 0) || decide (15 < e.1))
    · match settings, hne with
      | e :: rest, _ =>
        show (multiLoop true w s (e :: rest)).err.isSome = true
        obtain ⟨c, onV, offV⟩ := e
        unfold multiLoop
        rw [if_pos rfl]
        rfl
    · rfl
  · intro settings
    unfold SetMultiPWM
    cases hf : settings.find? (fun e => decide (e.1 < 0) || decide (15 < e.1))
    · match settings with
      | [] => exact ⟨rfl, rfl⟩
      | e :: rest =>
        show (multiLoop true w s (e :: rest)).state = s ∧
          (multiLoop true w s (e :: rest)).writes = []
        obtain ⟨c, onV, offV⟩ := e
        unfold multiLoop
        rw [if_pos rfl]
        exact ⟨rfl, rfl⟩
    · exact ⟨rfl, rfl⟩

/-- Witness for C6 amended: the fresh controller, one-entry settings
map. -/
theorem precanceled_fails_without_write_witness :
    (([((3 : Int), 1, 2)] : List PWMSetting) ≠ []) ∧
    (SetMultiPWM NewState true true [((3 : Int), 1, 2)]).err.isSome
      = true ∧
    (SetPWM NewState true true 3 1 2).state = NewState := by
  refine ⟨by simp, ?_, ?_⟩
  · exact (precanceled_fails_without_write NewState true).2.2.1
      [((3 : Int), 1, 2)] (by simp)
  · exact ((precanceled_fails_without_write NewState true).1 3 1 2).2.1

/-- C8 counterexample: `WithSpeedLimits(4097, 4098)` — arguments in
order, both above 4095 — clamps only `max`, leaving
`minSpeed = 4097 > 4095 = maxSpeed`, so `min_speed ≤ max_speed` fails. -/
theorem withSpeedLimits_min_above_max :
    ¬((WithSpeedLimits 4097 4098 (NewPumpBase 0)).minSpeed ≤
      (WithSpeedLimits 4097 4098 (NewPumpBase 0)).maxSpeed) := by
  decide

/-- C8 amended: `WithSpeedLimits(a, b)` assigns
`minSpeed = min a b` (reversed arguments are swapped) and
`maxSpeed = min (max a b) 4095` (clamped, so `maxSpeed ≤ 4095` always);
hence `minSpeed ≤ maxSpeed` holds whenever `min a b ≤ 4095`, but fails
when both arguments exceed 4095, because `min` is never clamped. -/
theorem withSpeedLimits_characterization (a b : Nat) (p : Pump) :
    (WithSpeedLimits a b p).minSpeed = min a b ∧
    (WithSpeedLimits a b p).maxSpeed = min (max a b) 4095 ∧
    (WithSpeedLimits a b p).maxSpeed ≤ 4095 ∧
    (min a b ≤ 4095 →
      (WithSpeedLimits a b p).minSpeed ≤ (WithSpeedLimits a b p).maxSpeed) := by
  unfold WithSpeedLimits
  dsimp only
  by_cases hab : a > b
  · rw [if_pos hab, if_pos hab]
    by_cases hc : a > 4095
    · rw [if_pos hc]; omega
    · rw [if_neg hc]; omega
  · rw [if_neg hab, if_neg hab]
    by_cases hc : b > 4095
    · rw [if_pos hc]; omega
    · rw [if_neg hc]; omega

/-- Witness for C8 amended: reversed in-range arguments (3000, 1000)
are swapped and satisfy `minSpeed ≤ maxSpeed`. -/
theorem withSpeedLimits_characterization_witness :
    min 3000 1000 ≤ 4095 ∧
    (WithSpeedLimits 3000 1000 (NewPumpBase 0)).minSpeed ≤
      (WithSpeedLimits 3000 1000 (NewPumpBase 0)).maxSpeed := by
  refine ⟨by norm_num, ?_⟩
  exact (withSpeedLimits_characterization 3000 1000 (NewPumpBase 0)).2.2.2
    (by norm_num)

/-- C1 (evaluating the code at the failing input): on a controller whose
channel 0 is enabled with recorded pair (5, 6) and a bus accepting every
write, `DisableChannels(0)` — having just cleared the enabled flag —
calls `SetPWM(ctx, 0, 0, 0)`, which rejects the now-disabled channel, so
the call returns the disabled-channel error instead of succeeding, the
recorded pair stays (5, 6) rather than becoming (0, 0), and no
silencing bus write is ever issued. -/
theorem disableChannels_rejects_own_silencing_write :
    (DisableChannels false true
      (⟨1000, fun i => if i = 0 then ⟨true, 5, 6⟩ else ⟨true, 0, 0⟩⟩ :
        PCA9685) [0]).err = some (.channelDisabled 0) ∧
    ((DisableChannels false true
      (⟨1000, fun i => if i = 0 then ⟨true, 5, 6⟩ else ⟨true, 0, 0⟩⟩ :
        PCA9685) [0]).state.channels 0).enabled = false ∧
    ((DisableChannels false true
      (⟨1000, fun i => if i = 0 then ⟨true, 5, 6⟩ else ⟨true, 0, 0⟩⟩ :
        PCA9685) [0]).state.channels 0).onVal = 5 ∧
    ((DisableChannels false true
      (⟨1000, fun i => if i = 0 then ⟨true, 5, 6⟩ else ⟨true, 0, 0⟩⟩ :
        PCA9685) [0]).state.channels 0).offVal = 6 ∧
    (DisableChannels false true
      (⟨1000, fun i => if i = 0 then ⟨true, 5, 6⟩ else ⟨true, 0, 0⟩⟩ :
        PCA9685) [0]).writes = [] := by
  refine ⟨rfl, rfl, rfl, rfl, rfl⟩

/-- C3 counterexample: the code never clamps: `SetPWM(0, 0, 4096)` on
the fresh controller succeeds and records `off = 4096 > 4095`, so the
invariant is not preserved for all `uint16` arguments. -/
theorem setPWM_records_beyond_4095 :
    (SetPWM NewState false true 0 0 4096).err = none ∧
    ((SetPWM NewState false true 0 0 4096).state.channels 0).offVal
      = 4096 := by
  exact ⟨rfl, rfl⟩

/-- C3 amended: the mutating operations record exactly the caller's
`uint16` arguments, without clamping; the invariant `on, off ≤ 4095`
is preserved by `SetPWM`, `SetAllPWM`, `SetMultiPWM` and
`DisableChannels` precisely when every supplied value is ≤ 4095 (which
the claim's "for all uint16 arguments" does not guarantee). -/
theorem duty_invariant_for_bounded_args :
    (∀ (s : PCA9685) (ctxDone writeOk : Bool) (channel : Int)
       (onVal offVal : Nat), onVal ≤ 4095 → offVal ≤ 4095 → dutyInv s →
       dutyInv (SetPWM s ctxDone writeOk channel onVal offVal).state) ∧
    (∀ (s : PCA9685) (ctxDone writeOk : Bool) (onVal offVal : Nat),
       onVal ≤ 4095 → offVal ≤ 4095 → dutyInv s →
       dutyInv (SetAllPWM s ctxDone writeOk onVal offVal).state) ∧
    (∀ (s : PCA9685) (ctxDone writeOk : Bool)
       (settings : List PWMSetting),
       (∀ e ∈ settings, e.2.1 ≤ 4095 ∧ e.2.2 ≤ 4095) → dutyInv s →
       dutyInv (SetMultiPWM s ctxDone writeOk settings).state) ∧
    (∀ (pcaCtx writeOk : Bool) (cs : List Int) (s : PCA9685), dutyInv s →
       dutyInv (DisableChannels pcaCtx writeOk s cs).state) := by
  refine ⟨?_, ?_, ?_, ?_⟩
  · exact fun s c w ch onV offV hon hoff hs =>
      setPWM_dutyInv s c w ch onV offV hon hoff hs
  · exact fun s c w onV offV hon hoff hs =>
      setAllPWM_dutyInv s c w onV offV hon hoff hs
  · exact fun s c w settings hb hs =>
      setMultiPWM_dutyInv s c w settings hb hs
  · exact fun pc w cs s hs => disableChannels_dutyInv pc w cs s hs

/-- Witness for C3 amended: a maximal in-range write on the fresh
controller keeps the invariant. -/
theorem duty_invariant_for_bounded_args_witness :
    (4095 ≤ 4095 ∧ dutyInv NewState) ∧
    dutyInv (SetPWM NewState false true 0 0 4095).state := by
  have hinv : dutyInv NewState := by
    intro i
    exact ⟨Nat.zero_le _, Nat.zero_le _⟩
  refine ⟨⟨le_refl 4095, hinv⟩, ?_⟩
  exact duty_invariant_for_bounded_args.1 NewState false true 0 0 4095
    (by norm_num) (by norm_num) hinv

/-- Scaling 255 at full brightness over the default (0, 4095) range:
`⌊255*4095/255⌋ = 4095`. -/
theorem rgbScale_default_255 : rgbScale 1 255 0 4095 = 4095 := by
  norm_num [rgbScale, u16sub]
  decide

/-- Scaling 0 gives 0. -/
theorem rgbScale_default_0 : rgbScale 1 0 0 4095 = 0 := by
  norm_num [rgbScale, u16sub]

/-- Scaling 128 at full brightness over the default (0, 4095) range:
`128*4095/255 = 2055.529…` and the Go float→uint16 conversion
truncates, giving 2055 — neither the 2064 of the claim nor the 2056
a true `round` would give. -/
theorem rgbScale_default_128 : rgbScale 1 128 0 4095 = 2055 := by
  norm_num [rgbScale, u16sub]
  decide

/-- The settings map `SetColor(255, 0, 128)` builds on a default led
over channels 0, 1, 2. -/
theorem setColorSettings_default_eq :
    SetColorSettings (NewRGBLed 0 1 2) 255 0 128 =
      [((0 : Int), 0, 4095), ((1 : Int), 0, 0), ((2 : Int), 0, 2055)] := by
  simp only [SetColorSettings, NewRGBLed, DefaultRGBCalibration]
  rw [rgbScale_default_255, rgbScale_default_0, rgbScale_default_128]

/-- C4 counterexample: with default calibration and brightness 1.0,
`SetColor(255, 0, 128)` submits blue duty 2055, not the 2064 the claim
states (nor `round(128*4095/255) = 2056`: the code truncates). -/
theorem setColor_blue_duty_not_2064 :
    SetColorSettings (NewRGBLed 0 1 2) 255 0 128 =
      [((0 : Int), 0, 4095), ((1 : Int), 0, 0), ((2 : Int), 0, 2055)] ∧
    (2055 : Nat) ≠ 2064 := by
  exact ⟨setColorSettings_default_eq, by norm_num⟩

/-- C4 amended: with default calibration and brightness 1.0,
`SetColor(255, 0, 128)` submits duty (off) values (4095, 0, 2055) for
the red, green and blue channels, computed as the truncation
`⌊value*4095/255⌋` with `on` fixed at 0 — and, submitted through
`SetMultiPWM` on the fresh controller, those values are what the three
channels record. -/
theorem setColor_truncated_duties :
    (SetColor (NewRGBLed 0 1 2) NewState false true 255 0 128).err
      = none ∧
    ((SetColor (NewRGBLed 0 1 2) NewState false true 255 0 128).state.channels
        0).onVal = 0 ∧
    ((SetColor (NewRGBLed 0 1 2) NewState false true 255 0 128).state.channels
        0).offVal = 4095 ∧
    ((SetColor (NewRGBLed 0 1 2) NewState false true 255 0 128).state.channels
        1).onVal = 0 ∧
    ((SetColor (NewRGBLed 0 1 2) NewState false true 255 0 128).state.channels
        1).offVal = 0 ∧
    ((SetColor (NewRGBLed 0 1 2) NewState false true 255 0 128).state.channels
        2).onVal = 0 ∧
    ((SetColor (NewRGBLed 0 1 2) NewState false true 255 0 128).state.channels
        2).offVal = 2055 := by
  have hset : SetColor (NewRGBLed 0 1 2) NewState false true 255 0 128 =
      SetMultiPWM NewState false true
        [((0 : Int), 0, 4095), ((1 : Int), 0, 0), ((2 : Int), 0, 2055)] := by
    unfold SetColor
    rw [setColorSettings_default_eq]
  rw [hset]
  exact ⟨rfl, rfl, rfl, rfl, rfl, rfl, rfl⟩

/-- Walking `EnableChannels` over a list of valid indices followed by an
invalid one: the invalid index is reported, but the valid prefix has
already been enabled (the state equals the state after enabling just
the prefix). -/
theorem enableChannels_prefix (bad : Int) (rest : List Int)
    (hbad : bad < 0 ∨ 15 < bad) :
    ∀ (pre : List Int) (s : PCA9685),
    (∀ c ∈ pre, ¬(c < 0 ∨ 15 < c)) →
    EnableChannels s (pre ++ bad :: rest) =
      ⟨some (.invalidChannel bad), (EnableChannels s pre).state, []⟩ := by
  intro pre
  induction pre with
  | nil =>
    intro s _
    show EnableChannels s (bad :: rest) = _
    unfold EnableChannels
    rw [dif_pos hbad]
  | cons c pre ih =>
    intro s hvalid
    have hc := hvalid c (List.mem_cons_self _ _)
    rw [List.cons_append]
    unfold EnableChannels
    rw [dif_neg hc, dif_neg hc]
    exact ih _ (fun x hx => hvalid x (List.mem_cons_of_mem _ hx))

/-- C2 counterexample: `EnableChannels([5, 16])` on a controller whose
channel 5 is disabled returns the validation error for index 16, yet
channel 5's enabled flag has already been flipped to true — the claim
that a validation error leaves every channel unchanged is false for
`EnableChannels`. -/
theorem enableChannels_partial_on_invalid :
    (EnableChannels
      (⟨1000, fun i => if i = 5 then ⟨false, 0, 0⟩ else ⟨true, 0, 0⟩⟩ :
        PCA9685) [5, 16]).err = some (.invalidChannel 16) ∧
    ((EnableChannels
      (⟨1000, fun i => if i = 5 then ⟨false, 0, 0⟩ else ⟨true, 0, 0⟩⟩ :
        PCA9685) [5, 16]).state.channels 5).enabled = true ∧
    ((⟨1000, fun i => if i = 5 then ⟨false, 0, 0⟩ else ⟨true, 0, 0⟩⟩ :
        PCA9685).channels 5).enabled = false := by
  exact ⟨rfl, rfl, rfl⟩

/-- C2 amended: `SetPWM`, `SetMultiPWM` and `SetPWMFreq` detect their
validation errors before any bus write and leave the state unchanged —
`SetMultiPWM` validates every key up front — but `EnableChannels`
validates each index only as it reaches it, so a list whose invalid
index follows valid ones returns the validation error with the valid
prefix already enabled. -/
theorem validation_before_io_characterization :
    (∀ (s : PCA9685) (ctxDone writeOk : Bool) (channel : Int)
       (onVal offVal : Nat), (channel < 0 ∨ 15 < channel) →
       SetPWM s ctxDone writeOk channel onVal offVal =
         ⟨some (.invalidChannel channel), s, []⟩) ∧
    (∀ (s : PCA9685) (ctxDone writeOk : Bool)
       (settings : List PWMSetting) (e : PWMSetting),
       settings.find? (fun e => decide (e.1 < 0) || decide (15 < e.1))
         = some e →
       SetMultiPWM s ctxDone writeOk settings =
         ⟨some (.invalidChannel e.1), s, []⟩) ∧
    (∀ (s : PCA9685) (bus : FreqBus) (freq : ℚ),
       (freq < (MinFrequency : ℚ) ∨ (MaxFrequency : ℚ) < freq) →
       SetPWMFreq s bus freq = ⟨some .freqOutOfRange, s, []⟩) ∧
    (∀ (s : PCA9685) (pre : List Int) (bad : Int) (rest : List Int),
       (∀ c ∈ pre, ¬(c < 0 ∨ 15 < c)) → (bad < 0 ∨ 15 < bad) →
       EnableChannels s (pre ++ bad :: rest) =
         ⟨some (.invalidChannel bad), (EnableChannels s pre).state, []⟩) := by
  refine ⟨?_, ?_, ?_, ?_⟩
  · intro s ctxDone writeOk channel onVal offVal h
    unfold SetPWM
    rw [dif_pos h]
  · intro s ctxDone writeOk settings e hf
    unfold SetMultiPWM
    rw [hf]
  · intro s bus freq h
    unfold SetPWMFreq
    rw [if_pos h]
  · intro s pre bad rest hvalid hbad
    exact enableChannels_prefix bad rest hbad pre s hvalid

/-- Witness for C2 amended: index 16 rejected by `SetPWM` with the
fresh controller untouched. -/
theorem validation_before_io_characterization_witness :
    (((16 : Int) < 0 ∨ (15 : Int) < 16)) ∧
    SetPWM NewState false true 16 1 2 =
      ⟨some (.invalidChannel 16), NewState, []⟩ := by
  refine ⟨by decide, ?_⟩
  exact validation_before_io_characterization.1 NewState false true 16 1 2
    (by decide)

/-- C7: for every frequency in [24, 1526], `SetPWMFreq` succeeds iff
every bus step (the `MODE1` read and the four writes) succeeds; on
success the recorded frequency becomes the argument, and on any failure
the whole state — in particular `Freq` — is exactly what it was before
the call. -/
theorem setPWMFreq_success_iff_steps (s : PCA9685) (bus : FreqBus)
    (freq : ℚ) (h1 : (24 : ℚ) ≤ freq) (h2 : freq ≤ 1526) :
    ((SetPWMFreq s bus freq).err = none ↔
      (bus.readMode1.isSome = true ∧ bus.wSleep = true ∧
       bus.wPrescale = true ∧ bus.wRestore = true ∧
       bus.wRestart = true)) ∧
    ((SetPWMFreq s bus freq).err = none →
      (SetPWMFreq s bus freq).state.freq = freq) ∧
    ((SetPWMFreq s bus freq).err ≠ none →
      (SetPWMFreq s bus freq).state = s) := by
  have hrange : ¬(freq < (MinFrequency : ℚ) ∨ (MaxFrequency : ℚ) < freq) := by
    push_neg
    constructor
    · unfold MinFrequency; push_cast; linarith
    · unfold MaxFrequency; push_cast; linarith
  obtain ⟨rm, ws, wp, wr, wt⟩ := bus
  unfold SetPWMFreq
  rw [if_neg hrange]
  cases rm <;> cases ws <;> cases wp <;> cases wr <;> cases wt <;>
    simp

/-- Witness for C7: 1000 Hz with an all-good bus reporting mode byte
0x20: success, recorded frequency 1000. -/
theorem setPWMFreq_success_iff_steps_witness :
    ((24 : ℚ) ≤ 1000 ∧ (1000 : ℚ) ≤ 1526) ∧
    (SetPWMFreq NewState ⟨some 0x20, true, true, true, true⟩ 1000).err
      = none ∧
    (SetPWMFreq NewState ⟨some 0x20, true, true, true, true⟩
        1000).state.freq = 1000 := by
  have h := setPWMFreq_success_iff_steps NewState
    ⟨some 0x20, true, true, true, true⟩ 1000 (by norm_num) (by norm_num)
  have hnone : (SetPWMFreq NewState
      ⟨some 0x20, true, true, true, true⟩ 1000).err = none :=
    h.1.mpr ⟨rfl, rfl, rfl, rfl, rfl⟩
  exact ⟨⟨by norm_num, by norm_num⟩, hnone, h.2.1 hnone⟩

/-- After a successful `SetPWM` the target channel holds exactly
(true, on, off). -/
theorem setPWM_ok_channel_self (s : PCA9685) (c : Fin 16)
    (onVal offVal : Nat) (hen : (s.channels c).enabled = true) :
    (SetPWM s false true (c.val : Int) onVal offVal).state.channels c =
      ⟨true, onVal, offVal⟩ := by
  rw [setPWM_ok_eq s c onVal offVal hen]
  dsimp only
  rw [Function.update_same, ← hen]

/-- Step 20 of the interpolation lands exactly on `stop`. -/
theorem fadeValue_last (start stop : Nat) :
    fadeValue start stop 20 = stop := by
  unfold fadeValue
  by_cases h : start ≤ stop
  · rw [if_pos h, Nat.mul_div_cancel _ (by norm_num)]
    omega
  · rw [if_neg h, Nat.mul_div_cancel _ (by norm_num)]
    omega

/-- A full run of the fade loop with a token that never fires and a bus
accepting every write: no error, one write per step, and the channel
ends at the value of the last step taken. -/
theorem fadeLoop_all_ok (c : Fin 16) (ctxAt : Nat → Bool)
    (start stop : Nat) (hctx : ∀ j, ctxAt j = false) :
    ∀ (k i : Nat) (s : PCA9685), (s.channels c).enabled = true →
    (fadeLoop true ctxAt (c.val : Int) start stop i k s).err = none ∧
    (fadeLoop true ctxAt (c.val : Int) start stop i k s).writes.length
      = k ∧
    (fadeLoop true ctxAt (c.val : Int) start stop i k s).state.channels c
      = (if k = 0 then s.channels c
         else ⟨true, 0, fadeValue start stop (i + k - 1)⟩) := by
  intro k
  induction k with
  | zero => intro i s hen; exact ⟨rfl, rfl, rfl⟩
  | succ k ih =>
    intro i s hen
    unfold fadeLoop
    rw [hctx i, if_neg Bool.false_ne_true]
    dsimp only
    have herr :
        (SetPWM s false true (c.val : Int) 0 (fadeValue start stop i)).err
          = none := by
      rw [setPWM_ok_eq s c 0 (fadeValue start stop i) hen]
    have hwr :
        (SetPWM s false true (c.val : Int) 0
          (fadeValue start stop i)).writes.length = 1 := by
      rw [setPWM_ok_eq s c 0 (fadeValue start stop i) hen]
      rfl
    have hch := setPWM_ok_channel_self s c 0 (fadeValue start stop i) hen
    rw [herr]
    dsimp only
    have hen1 :
        (((SetPWM s false true (c.val : Int) 0
          (fadeValue start stop i)).state.channels c).enabled) = true := by
      rw [hch]
    obtain ⟨e1, e2, e3⟩ := ih (i + 1) _ hen1
    refine ⟨e1, ?_, ?_⟩
    · rw [List.length_append, hwr, e2]
      omega
    · rw [e3]
      rcases Nat.eq_zero_or_pos k with hk | hk
      · subst hk
        rw [if_pos rfl, if_neg (by omega)]
        rw [hch]
        norm_num
      · rw [if_neg (by omega), if_neg (by omega)]
        have harg : i + 1 + k - 1 = i + (k + 1) - 1 := by omega
        rw [harg]

/-- A run of the fade loop on an enabled channel with a bus accepting
every write, where the token first fires at step `m` within the run:
the loop stops with the cancellation error after the `m - i` writes of
the steps before `m`. -/
theorem fadeLoop_cancel_at (c : Fin 16) (ctxAt : Nat → Bool)
    (start stop : Nat) :
    ∀ (k i m : Nat) (s : PCA9685), (s.channels c).enabled = true →
    i ≤ m → m < i + k → ctxAt m = true →
    (∀ j, i ≤ j → j < m → ctxAt j = false) →
    (fadeLoop true ctxAt (c.val : Int) start stop i k s).err
      = some .canceled ∧
    (fadeLoop true ctxAt (c.val : Int) start stop i k s).writes.length
      = m - i := by
  intro k
  induction k with
  | zero => intro i m s _ him hmk _ _; omega
  | succ k ih =>
    intro i m s hen him hmk hm hbefore
    unfold fadeLoop
    rcases Nat.eq_or_lt_of_le him with heq | hlt
    · subst heq
      rw [hm, if_pos rfl]
      exact ⟨rfl, by simp⟩
    · rw [hbefore i le_rfl hlt, if_neg Bool.false_ne_true]
      dsimp only
      have herr :
          (SetPWM s false true (c.val : Int) 0
            (fadeValue start stop i)).err = none := by
        rw [setPWM_ok_eq s c 0 (fadeValue start stop i) hen]
      have hwr :
          (SetPWM s false true (c.val : Int) 0
            (fadeValue start stop i)).writes.length = 1 := by
        rw [setPWM_ok_eq s c 0 (fadeValue start stop i) hen]
        rfl
      have hch := setPWM_ok_channel_self s c 0 (fadeValue start stop i) hen
      rw [herr]
      dsimp only
      have hen1 :
          (((SetPWM s false true (c.val : Int) 0
            (fadeValue start stop i)).state.channels c).enabled) = true := by
        rw [hch]
      obtain ⟨e1, e2⟩ := ih (i + 1) m _ hen1 hlt (by omega) hm
        (fun j hj1 hj2 => hbefore j (by omega) hj2)
      refine ⟨e1, ?_⟩
      rw [List.length_append, hwr, e2]
      omega

/-- C9 (spec-modelled, `fade` is absent from `src/`): on a valid enabled
channel with every write accepted, the fade loop issues 20 discrete
`set_pwm` steps whose off values interpolate linearly from `start` to
`stop`, so that on full success (token never fires) it succeeds with the
channel's recorded off equal to `stop`; and if the token first fires at
step `m` of the run, the loop stops there — only the `m - 1` earlier
writes were issued — returning the cancellation error. -/
theorem fadeChannel_linear_and_cancel (s : PCA9685) (c : Fin 16)
    (ctxAt : Nat → Bool) (start stop : Nat)
    (hen : (s.channels c).enabled = true) :
    ((∀ j, ctxAt j = false) →
      (FadeChannel s ctxAt true (c.val : Int) start stop).err = none ∧
      ((FadeChannel s ctxAt true (c.val : Int) start
          stop).state.channels c).offVal = stop ∧
      (FadeChannel s ctxAt true (c.val : Int) start stop).writes.length
        = 20) ∧
    (∀ m, 1 ≤ m → m ≤ 20 → ctxAt m = true →
      (∀ j, j < m → ctxAt j = false) →
      (FadeChannel s ctxAt true (c.val : Int) start stop).err
        = some .canceled ∧
      (FadeChannel s ctxAt true (c.val : Int) start stop).writes.length
        = m - 1) := by
  constructor
  · intro hctx
    obtain ⟨e1, e2, e3⟩ := fadeLoop_all_ok c ctxAt start stop hctx 20 1 s hen
    refine ⟨e1, ?_, e2⟩
    unfold FadeChannel
    rw [e3, if_neg (by omega)]
    show fadeValue start stop (1 + 20 - 1) = stop
    norm_num [fadeValue_last]
  · intro m hm1 hm20 hfire hbefore
    exact fadeLoop_cancel_at c ctxAt start stop 20 1 m s hen hm1
      (by omega) hfire (fun j hj1 hj2 => hbefore j hj2)

/-- Witness for C9: fading channel 0 of the fresh controller from 0 to
3000 with a token that never fires ends with recorded off 3000. -/
theorem fadeChannel_linear_and_cancel_witness :
    ((NewState.channels 0).enabled = true) ∧
    (FadeChannel NewState (fun _ => false) true (((0 : Fin 16)).val : Int)
        0 3000).err = none ∧
    ((FadeChannel NewState (fun _ => false) true (((0 : Fin 16)).val : Int)
        0 3000).state.channels 0).offVal = 3000 := by
  have h := (fadeChannel_linear_and_cancel NewState 0 (fun _ => false)
    0 3000 rfl).1 (fun j => rfl)
  exact ⟨rfl, h.1, h.2.1⟩

end PCA
